import Mathlib

/-!
Shallow embedding of the `hello` thread-pool library (src/lib.rs):
a fixed-size pool of workers fed by an mpsc channel of `Message` values,
with checked (`ThreadPool::build`) and unchecked (`ThreadPool::new`)
construction, fire-and-forget submission (`ThreadPool::execute`) and a
`Drop` implementation that terminates and joins every worker.

Jobs are opaque one-shot callables in Rust; the embedding identifies a job
by an id and records invocations rather than executing them. Panics are
modelled as `none` / early `Except.error` results. The mpsc channel queue
is threaded through the pool state, since the embedding is sequential.
-/

namespace Hello

/-- Rust: type Job = Box of a one-shot Send callable. The embedding names a
job by an opaque id. -/
abbrev Job := Nat

/-- Rust: enum Message (src/lib.rs:13-16), NewJob carrying one job, or
Terminate carrying nothing. -/
inductive Message where
  | NewJob (job : Job)
  | Terminate
deriving DecidableEq

/-- Rust: enum PoolCreationError (src/lib.rs:19-23), ZeroSize, or
ThreadCreationError carrying one message string. -/
inductive PoolCreationError where
  | ZeroSize
  | ThreadCreationError (msg : String)
deriving DecidableEq

/-- Handle to a spawned OS thread, identified by the worker id the thread was
spawned for. -/
structure JoinHandle where
  threadId : Nat
deriving DecidableEq

/-- Rust: struct Worker (src/lib.rs:117-120), an id and an optional join
handle for its one background thread. -/
structure Worker where
  id : Nat
  thread : Option JoinHandle
deriving DecidableEq

/-- Rust: struct ThreadPool (src/lib.rs:6-9), the owned workers and the
optional send-side handle. The field `chan` carries the mpsc channel queue
(messages sent and not yet received, FIFO) through the sequential embedding. -/
structure ThreadPool where
  workers : List Worker
  sender : Option Unit
  chan : List Message
deriving DecidableEq

/-- Rust: Worker::new (src/lib.rs:123-140). Here thread::spawn always yields a
handle, since in Rust its failure aborts the process rather than returning. -/
def Worker.new (id : Nat) : Worker :=
  { id := id, thread := some ⟨id⟩ }

/-- Rust: Worker::build (src/lib.rs:142-164). Thread creation through
Builder::spawn can fail; the OS is modelled by a `spawn` oracle giving, per
worker id, either a handle or the failure cause (the io::Error, rendered as
its display string, as the format! call in ThreadPool::build does). -/
def Worker.build (id : Nat) (spawn : Nat → Except String JoinHandle) :
    Except String Worker :=
  match spawn id with
  | .ok h => .ok { id := id, thread := some h }
  | .error e => .error e

/-- Rust: ThreadPool::new (src/lib.rs:33-49). The assert on size > 0 panics at
zero, modelled as `none`; otherwise workers 0..size-1 are spawned in order and
the pool holds the sender. -/
def ThreadPool.new (size : Nat) : Option ThreadPool :=
  if 0 < size then
    some { workers := (List.range size).map Worker.new,
           sender := some (),
           chan := [] }
  else none

/-- Worker-spawning loop of ThreadPool::build (src/lib.rs:68-75) over the ids
it iterates: the first Worker::build failure aborts the loop with
ThreadCreationError carrying the formatted message naming the id and cause. -/
def buildLoop (spawn : Nat → Except String JoinHandle) :
    List Nat → Except PoolCreationError (List Worker)
  | [] => .ok []
  | id :: rest =>
    match Worker.build id spawn with
    | .ok w =>
      match buildLoop spawn rest with
      | .ok ws => .ok (w :: ws)
      | .error e => .error e
    | .error err =>
      .error (.ThreadCreationError
        ("Failed to create worker " ++ toString id ++ ": " ++ err))

/-- Rust: ThreadPool::build (src/lib.rs:58-81). Size zero returns ZeroSize
before any spawn; otherwise the loop spawns workers 0..size-1, stopping at the
first failure. -/
def ThreadPool.build (size : Nat) (spawn : Nat → Except String JoinHandle) :
    Except PoolCreationError ThreadPool :=
  if size = 0 then .error .ZeroSize
  else
    match buildLoop spawn (List.range size) with
    | .ok ws => .ok { workers := ws, sender := some (), chan := [] }
    | .error e => .error e

/-- Worker ids for which the loop of ThreadPool::build invokes thread
creation: each id in order, stopping after the first failing spawn. -/
def buildLoopCalls (spawn : Nat → Except String JoinHandle) :
    List Nat → List Nat
  | [] => []
  | id :: rest =>
    id :: (match spawn id with
           | .ok _ => buildLoopCalls spawn rest
           | .error _ => [])

/-- Worker ids for which ThreadPool::build invokes thread creation: none at
size zero (the ZeroSize return precedes the loop, src/lib.rs:59-61). -/
def ThreadPool.buildCalls (size : Nat)
    (spawn : Nat → Except String JoinHandle) : List Nat :=
  if size = 0 then [] else buildLoopCalls spawn (List.range size)

/-- Rust: ThreadPool::execute (src/lib.rs:83-89). Boxes the callable and sends
NewJob through the sender; the unwrap on the sender option panics (`none`)
when the sender has been taken. The send itself cannot fail while the workers
hold the receive side. -/
def ThreadPool.execute (p : ThreadPool) (f : Job) : Option ThreadPool :=
  match p.sender with
  | some _ => some { p with chan := p.chan ++ [Message.NewJob f] }
  | none => none

/-- Observable effects of the Drop implementation for ThreadPool
(src/lib.rs:92-115), in order. -/
inductive Ev where
  | SendTerminate
  | DropSender
  | JoinWorker (id : Nat)
deriving DecidableEq

/-- Terminate-sending loop of drop (src/lib.rs:97-99): one
sender.as_ref().unwrap().send(Terminate) per owned worker; the unwrap panics
(`none`) if the sender is absent while a worker remains. -/
def sendTerminates (sender : Option Unit) : List Worker → Option (List Ev)
  | [] => some []
  | _ :: rest =>
    match sender with
    | some _ =>
      match sendTerminates sender rest with
      | some evs => some (Ev.SendTerminate :: evs)
      | none => none
    | none => none

/-- Join loop of drop (src/lib.rs:107-113): each worker whose thread option
still holds a handle is joined, in order. -/
def joinEvents : List Worker → List Ev
  | [] => []
  | w :: rest =>
    (match w.thread with
     | some _ => [Ev.JoinWorker w.id]
     | none => []) ++ joinEvents rest

/-- Rust: Drop for ThreadPool (src/lib.rs:92-115): send one Terminate per
worker, then take the sender, then join every worker thread. The result is the
event trace and the pool as the destructor leaves it (sender taken, thread
handles taken, the Terminate messages enqueued on the channel); `none` models
an unwrap panic in the send loop. -/
def ThreadPool.drop (p : ThreadPool) : Option (List Ev × ThreadPool) :=
  match sendTerminates p.sender p.workers with
  | some evs =>
    some (evs ++ [Ev.DropSender] ++ joinEvents p.workers,
          { workers := p.workers.map (fun w => { w with thread := none }),
            sender := none,
            chan := p.chan ++ List.replicate p.workers.length Message.Terminate })
  | none => none

/-- Whether a message is a NewJob. -/
def Message.isNewJob : Message → Bool
  | .NewJob _ => true
  | .Terminate => false

/-- Job a NewJob message carries. -/
def Message.jobOf : Message → Option Job
  | .NewJob j => some j
  | .Terminate => none

/-- Body of the worker loop shared by Worker::new and Worker::build
(src/lib.rs:124-137 and 145-158), run over the finite sequence of messages
offered to the worker: the pair lists the jobs it runs, in order, and the
messages it consumes. A NewJob runs its job and loops; a Terminate breaks the
loop, so nothing after the first Terminate is consumed. An exhausted list
means the worker is still blocked in recv, having consumed everything so
far. -/
def workerRun : List Message → List Job × List Message
  | [] => ([], [])
  | .NewJob job :: rest =>
    (job :: (workerRun rest).1, Message.NewJob job :: (workerRun rest).2)
  | .Terminate :: _ => ([], [Message.Terminate])

/-- Worker state machine of the specification, as a function of the offered
message sequence, stated from the words of the spec for comparison with
`workerRun`: the jobs run are exactly the payloads of the NewJob prefix before
the first Terminate, each once, in order; the messages consumed are that
prefix, closed by the first Terminate when one occurs. -/
def specWorkerRun (msgs : List Message) : List Job × List Message :=
  ((msgs.takeWhile Message.isNewJob).filterMap Message.jobOf,
   match msgs.dropWhile Message.isNewJob with
   | [] => msgs
   | _ :: _ => msgs.takeWhile Message.isNewJob ++ [Message.Terminate])

/-- Events of one worker-loop iteration, for the mutual-exclusion discipline:
acquiring the mutex around the receiver, receiving, releasing, then acting on
the message. -/
inductive LockEv where
  | acquire
  | recvMsg
  | release
  | runJob (j : Job)
  | breakLoop
deriving DecidableEq

/-- One iteration of the worker loop (src/lib.rs:125-136) as a lock-event
trace. In the statement binding `message`, the MutexGuard returned by
receiver.lock().unwrap() is a temporary of that one statement, so it is
dropped — the lock released — at the end of the statement, after recv extracts
one message and before the match on the message runs. -/
def workerIterEvents (m : Message) : List LockEv :=
  [LockEv.acquire, LockEv.recvMsg, LockEv.release] ++
    (match m with
     | .NewJob j => [LockEv.runJob j]
     | .Terminate => [LockEv.breakLoop])

/-- Lock depth after an event. -/
def depthStep (d : Nat) : LockEv → Nat
  | .acquire => d + 1
  | .release => d - 1
  | _ => d

/-- Lock depth before each event of a trace, starting from depth `d`. -/
def depthsFrom (d : Nat) : List LockEv → List Nat
  | [] => []
  | e :: rest => d :: depthsFrom (depthStep d e) rest

/-- Channel and workers as shutdown leaves them: the remaining queue, the
number of workers still in their receive loop, and whether the send side is
gone. -/
structure DrainState where
  queue : List Message
  active : Nat
  closed : Bool
deriving DecidableEq

/-- Defensive failure the recv().unwrap() of the worker loop guards against
(src/lib.rs:125): a worker still looping while the channel is closed and
empty. -/
def recvCanFail (s : DrainState) : Prop :=
  s.closed = true ∧ s.queue = [] ∧ 0 < s.active

/-- One shutdown-drain step: some still-active worker receives the head
message; a NewJob leaves it looping, a Terminate stops it. When no message or
no active worker remains, nothing moves. -/
def drainStep (s : DrainState) : DrainState :=
  match s.queue, s.active with
  | m :: rest, a + 1 =>
    { s with queue := rest,
             active := match m with
                       | .Terminate => a
                       | .NewJob _ => a + 1 }
  | _, _ => s

/-- Iterated shutdown-drain steps. -/
def drainIter : Nat → DrainState → DrainState
  | 0, s => s
  | n + 1, s => drainIter n (drainStep s)

/-- Number of Terminate messages in a queue. -/
def countTerm (msgs : List Message) : Nat :=
  (msgs.filter fun m => !m.isNewJob).length

/-- Drain state right after drop has run: the final channel contents, all `n`
workers still looping, send side closed. -/
def shutdownDrain (chan : List Message) (n : Nat) : DrainState :=
  { queue := chan, active := n, closed := true }

/-- Two-worker pool exactly as ThreadPool::new 2 yields it. -/
def pool2 : ThreadPool :=
  { workers := [⟨0, some ⟨0⟩⟩, ⟨1, some ⟨1⟩⟩], sender := some (), chan := [] }

/-- Two-worker pool with one job already enqueued and not yet received. -/
def pool2j : ThreadPool :=
  { workers := [⟨0, some ⟨0⟩⟩, ⟨1, some ⟨1⟩⟩], sender := some (),
    chan := [Message.NewJob 7] }

/-- Spawn oracle on which thread creation always succeeds. -/
def spawnOk : Nat → Except String JoinHandle := fun i => .ok ⟨i⟩

/-- Spawn oracle failing exactly at worker 0 with cause "boom". -/
def spawnFail0 : Nat → Except String JoinHandle :=
  fun i => if i = 0 then .error "boom" else .ok ⟨i⟩

/-- Event trace of dropping a two-worker pool. -/
def dropTrace2 : List Ev :=
  [Ev.SendTerminate, Ev.SendTerminate, Ev.DropSender,
   Ev.JoinWorker 0, Ev.JoinWorker 1]

/-- Pool state after dropping `pool2`. -/
def pool2dropped : ThreadPool :=
  { workers := [⟨0, none⟩, ⟨1, none⟩], sender := none,
    chan := [Message.Terminate, Message.Terminate] }

/-- Pool state after dropping `pool2j`. -/
def pool2jdropped : ThreadPool :=
  { workers := [⟨0, none⟩, ⟨1, none⟩], sender := none,
    chan := [Message.NewJob 7, Message.Terminate, Message.Terminate] }

/-! Helper lemmas. -/

/-- Splitting the range at an index below its bound. -/
theorem range_split (k N : Nat) (h : k < N) :
    ∃ rest : List Nat, List.range N = List.range k ++ k :: rest := by
  induction N with
  | zero => omega
  | succ m ih =>
    rcases Nat.lt_or_ge k m with hk | hk
    · obtain ⟨rest, hrest⟩ := ih hk
      exact ⟨rest ++ [m], by
        rw [List.range_succ, hrest]
        simp⟩
    · have hkm : k = m := by omega
      subst hkm
      exact ⟨[], by rw [List.range_succ]⟩

/-- Loop of ThreadPool::build: when every spawn in a prefix succeeds and the
next spawn fails, the loop stops with the formatted error for that id. -/
theorem buildLoop_err (spawn : Nat → Except String JoinHandle)
    (k : Nat) (c : String) (rest : List Nat)
    (hfail : spawn k = .error c) :
    ∀ pre : List Nat, (∀ i ∈ pre, ∃ h, spawn i = .ok h) →
      buildLoop spawn (pre ++ k :: rest)
        = .error (.ThreadCreationError
            ("Failed to create worker " ++ toString k ++ ": " ++ c)) := by
  intro pre
  induction pre with
  | nil =>
    intro _
    simp only [List.nil_append, buildLoop, Worker.build, hfail]
  | cons i pre ih =>
    intro hok
    obtain ⟨h, hi⟩ := hok i (by simp)
    have htail := ih (fun j hj => hok j (by simp [hj]))
    simp only [List.cons_append, buildLoop, Worker.build, hi, List.append_eq,
      htail]

/-- Call-instrumentation of the loop: with a succeeding prefix and a failure
at the next id, thread creation is attempted exactly for the prefix and the
failing id. -/
theorem buildLoopCalls_err (spawn : Nat → Except String JoinHandle)
    (k : Nat) (c : String) (rest : List Nat)
    (hfail : spawn k = .error c) :
    ∀ pre : List Nat, (∀ i ∈ pre, ∃ h, spawn i = .ok h) →
      buildLoopCalls spawn (pre ++ k :: rest) = pre ++ [k] := by
  intro pre
  induction pre with
  | nil =>
    intro _
    simp only [List.nil_append, buildLoopCalls, hfail]
  | cons i pre ih =>
    intro hok
    obtain ⟨h, hi⟩ := hok i (by simp)
    have htail := ih (fun j hj => hok j (by simp [hj]))
    simp only [List.cons_append, buildLoopCalls, hi, List.append_eq, htail]

/-- Loop of ThreadPool::build: a successful run yields workers whose ids are
exactly the iterated ids, each holding a thread handle. -/
theorem buildLoop_ok_inv (spawn : Nat → Except String JoinHandle) :
    ∀ ids ws, buildLoop spawn ids = .ok ws →
      ws.map Worker.id = ids ∧ ∀ w ∈ ws, w.thread.isSome := by
  intro ids
  induction ids with
  | nil =>
    intro ws hws
    simp only [buildLoop] at hws
    cases hws
    simp
  | cons i rest ih =>
    intro ws hws
    simp only [buildLoop, Worker.build] at hws
    cases hsp : spawn i with
    | error e => rw [hsp] at hws; cases hws
    | ok h =>
      rw [hsp] at hws
      cases htl : buildLoop spawn rest with
      | error e => rw [htl] at hws; cases hws
      | ok ws' =>
        rw [htl] at hws
        cases hws
        obtain ⟨h1, h2⟩ := ih ws' htl
        refine ⟨by simp [h1], ?_⟩
        intro w hw
        rcases List.mem_cons.mp hw with hw | hw
        · subst hw; rfl
        · exact h2 w hw

/-- Send loop of drop: with the sender present it emits one SendTerminate per
worker. -/
theorem sendTerminates_some :
    ∀ ws : List Worker, sendTerminates (some ()) ws
      = some (List.replicate ws.length Ev.SendTerminate) := by
  intro ws
  induction ws with
  | nil => rfl
  | cons w rest ih => simp [sendTerminates, ih, List.replicate_succ]

/-- Join loop of drop: when every worker holds a thread handle, each worker is
joined, in order. -/
theorem joinEvents_all :
    ∀ ws : List Worker, (∀ w ∈ ws, w.thread.isSome) →
      joinEvents ws = ws.map (fun w => Ev.JoinWorker w.id) := by
  intro ws
  induction ws with
  | nil => intro _; rfl
  | cons w rest ih =>
    intro hall
    have hw := hall w (by simp)
    cases hth : w.thread with
    | none => rw [hth] at hw; cases hw
    | some h =>
      simp only [joinEvents, hth, List.map_cons]
      rw [ih (fun v hv => hall v (by simp [hv]))]
      simp

/-- Elements of a takeWhile satisfy the predicate. -/
theorem mem_takeWhile_sat {α : Type} (p : α → Bool) :
    ∀ l : List α, ∀ a ∈ l.takeWhile p, p a = true := by
  intro l
  induction l with
  | nil => intro a ha; cases ha
  | cons x rest ih =>
    intro a ha
    by_cases hx : p x = true
    · rw [List.takeWhile_cons_of_pos hx] at ha
      rcases List.mem_cons.mp ha with h | h
      · subst h; exact hx
      · exact ih a h
    · rw [List.takeWhile_cons_of_neg hx] at ha
      cases ha

/-- Terminate count distributes over append. -/
theorem countTerm_append (a b : List Message) :
    countTerm (a ++ b) = countTerm a + countTerm b := by
  simp [countTerm, List.filter_append]

/-- Terminate count of a Terminate block. -/
theorem countTerm_replicate (n : Nat) :
    countTerm (List.replicate n Message.Terminate) = n := by
  induction n with
  | zero => rfl
  | succ m ih =>
    have step : countTerm (Message.Terminate :: List.replicate m Message.Terminate)
        = countTerm (List.replicate m Message.Terminate) + 1 := by
      simp [countTerm, List.filter_cons, Message.isNewJob]
    rw [List.replicate_succ, step, ih]

/-- Queues of NewJob messages only hold no Terminate. -/
theorem countTerm_allNew :
    ∀ msgs : List Message, (∀ m ∈ msgs, m.isNewJob = true) →
      countTerm msgs = 0 := by
  intro msgs
  induction msgs with
  | nil => intro _; rfl
  | cons m rest ih =>
    intro h
    have hm := h m (by simp)
    have hr := ih (fun x hx => h x (by simp [hx]))
    simp only [countTerm] at hr ⊢
    rw [List.filter_cons, hm]
    simpa using hr

/-- One drain step preserves the invariant tying the Terminate count of the
queue to the number of still-active workers. -/
theorem drain_inv_step (s : DrainState)
    (h : countTerm s.queue = s.active) :
    countTerm (drainStep s).queue = (drainStep s).active := by
  obtain ⟨q, a, cl⟩ := s
  cases q with
  | nil => simpa [drainStep] using h
  | cons m rest =>
    cases a with
    | zero => simpa [drainStep] using h
    | succ a' =>
      cases m with
      | NewJob j =>
        simp only [drainStep]
        simp only [countTerm, List.filter_cons, Message.isNewJob] at h ⊢
        simpa using h
      | Terminate =>
        simp only [drainStep]
        simp only [countTerm, List.filter_cons, Message.isNewJob] at h ⊢
        simp at h ⊢
        omega

/-- Iterated drain steps preserve the invariant. -/
theorem drain_inv_iter (n : Nat) :
    ∀ s : DrainState, countTerm s.queue = s.active →
      countTerm (drainIter n s).queue = (drainIter n s).active := by
  induction n with
  | zero => intro s h; exact h
  | succ m ih =>
    intro s h
    exact ih (drainStep s) (drain_inv_step s h)

/-! Claim theorems. -/

/-- Claim C3: checked construction at size 0 returns the ZeroSize error and
invokes thread creation for no worker — whatever the spawn oracle would have
done — so no worker exists to receive a channel endpoint. -/
theorem build_zero_size :
    ∀ spawn : Nat → Except String JoinHandle,
      ThreadPool.build 0 spawn = .error .ZeroSize
      ∧ ThreadPool.buildCalls 0 spawn = [] := by
  intro spawn
  exact ⟨rfl, rfl⟩

/-- Claim C4: the unchecked constructor at size 0 takes the assertion branch
and produces no ThreadPool value. -/
theorem new_zero_is_abort : ThreadPool.new 0 = none := rfl

/-- Claim C7: execute wraps the callable as a NewJob message and enqueues it
on the dispatch channel, and that enqueue is its only effect — the workers and
the sender are untouched, the channel gains exactly NewJob f at its tail, and
the call returns nothing about the task beyond having enqueued it. -/
theorem execute_enqueues_only (p : ThreadPool) (f : Job)
    (hs : p.sender = some ()) :
    ∃ q, p.execute f = some q
      ∧ q.chan = p.chan ++ [Message.NewJob f]
      ∧ q.workers = p.workers
      ∧ q.sender = p.sender := by
  refine ⟨{ p with chan := p.chan ++ [Message.NewJob f] }, ?_, rfl, rfl, rfl⟩
  simp [ThreadPool.execute, hs]

/-- Claim C7 witness: execute on a concrete two-worker pool. -/
theorem execute_enqueues_only_witness :
    pool2.sender = some ()
    ∧ ∃ q, pool2.execute 5 = some q
        ∧ q.chan = pool2.chan ++ [Message.NewJob 5]
        ∧ q.workers = pool2.workers
        ∧ q.sender = pool2.sender :=
  ⟨rfl, execute_enqueues_only pool2 5 rfl⟩

/-- Claim C10: every pool the constructors hand back has its sender option
present; execute keeps it present; and with the sender present the unwraps of
that option inside execute and inside the terminate-sending loop of drop
succeed — execute yields a pool and drop yields a trace rather than
panicking. -/
theorem sender_present_no_unwrap_failure
    (N : Nat) (spawn : Nat → Except String JoinHandle)
    (p : ThreadPool) (f : Job) (hs : p.sender = some ()) :
    (∀ q, ThreadPool.new N = some q → q.sender = some ())
    ∧ (∀ q, ThreadPool.build N spawn = .ok q → q.sender = some ())
    ∧ (∃ q, p.execute f = some q ∧ q.sender = some ())
    ∧ ∃ r, p.drop = some r := by
  refine ⟨?_, ?_, ?_, ?_⟩
  · intro q hq
    unfold ThreadPool.new at hq
    split at hq
    · cases hq; rfl
    · cases hq
  · intro q hq
    unfold ThreadPool.build at hq
    split at hq
    · cases hq
    · cases hb : buildLoop spawn (List.range N) with
      | ok ws => rw [hb] at hq; cases hq; rfl
      | error e => rw [hb] at hq; cases hq
  · exact ⟨{ p with chan := p.chan ++ [Message.NewJob f] },
      by simp [ThreadPool.execute, hs], hs⟩
  · refine ⟨(List.replicate p.workers.length Ev.SendTerminate
        ++ [Ev.DropSender] ++ joinEvents p.workers,
      { workers := p.workers.map (fun w => { w with thread := none }),
        sender := none,
        chan := p.chan ++ List.replicate p.workers.length Message.Terminate }),
      ?_⟩
    simp [ThreadPool.drop, hs, sendTerminates_some]

/-- Claim C10 witness: concrete size, oracle and pool. -/
theorem sender_present_no_unwrap_failure_witness :
    pool2.sender = some ()
    ∧ ((∀ q, ThreadPool.new 2 = some q → q.sender = some ())
        ∧ (∀ q, ThreadPool.build 2 spawnOk = .ok q → q.sender = some ())
        ∧ (∃ q, pool2.execute 5 = some q ∧ q.sender = some ())
        ∧ ∃ r, pool2.drop = some r) :=
  ⟨rfl, sender_present_no_unwrap_failure 2 spawnOk pool2 5 rfl⟩

/-- Claim C1: dropping a pool whose sender is present and whose workers all
hold thread handles performs, in this order, one Terminate send per owned
worker (exactly workers.length of them), then the disposal of the send-side
handle, then one join per worker thread; the channel gains exactly that many
Terminate messages, and afterwards no submission is possible. -/
theorem drop_terminates_then_closes_then_joins
    (p : ThreadPool) (tr : List Ev) (q : ThreadPool)
    (hn : 1 ≤ p.workers.length)
    (hs : p.sender = some ())
    (ht : ∀ w ∈ p.workers, w.thread.isSome)
    (hd : p.drop = some (tr, q)) :
    tr = List.replicate p.workers.length Ev.SendTerminate
        ++ [Ev.DropSender]
        ++ p.workers.map (fun w => Ev.JoinWorker w.id)
    ∧ q.chan = p.chan ++ List.replicate p.workers.length Message.Terminate
    ∧ q.sender = none
    ∧ ∀ f, q.execute f = none := by
  unfold ThreadPool.drop at hd
  rw [hs, sendTerminates_some] at hd
  simp only [Option.some.injEq, Prod.mk.injEq] at hd
  obtain ⟨htr, hq⟩ := hd
  subst hq
  refine ⟨?_, rfl, rfl, fun f => rfl⟩
  rw [← htr, joinEvents_all p.workers ht]

/-- Claim C1 witness: dropping a concrete two-worker pool. -/
theorem drop_terminates_then_closes_then_joins_witness :
    (1 ≤ pool2.workers.length
      ∧ pool2.sender = some ()
      ∧ (∀ w ∈ pool2.workers, w.thread.isSome)
      ∧ pool2.drop = some (dropTrace2, pool2dropped))
    ∧ (dropTrace2 = List.replicate pool2.workers.length Ev.SendTerminate
          ++ [Ev.DropSender]
          ++ pool2.workers.map (fun w => Ev.JoinWorker w.id)
      ∧ pool2dropped.chan
          = pool2.chan ++ List.replicate pool2.workers.length Message.Terminate
      ∧ pool2dropped.sender = none
      ∧ ∀ f, pool2dropped.execute f = none) :=
  ⟨⟨by decide, rfl, by decide, by decide⟩,
    drop_terminates_then_closes_then_joins pool2 dropTrace2 pool2dropped
      (by decide) rfl (by decide) (by decide)⟩

/-- Claim C5: every successful construction at size N ≥ 1 — new N, or build N
returning ok — owns exactly N workers whose ids are exactly 0..N-1, each
holding a join handle for its one background thread; no successful result has
fewer than N workers. -/
theorem construction_exact_workers (N : Nat)
    (spawn : Nat → Except String JoinHandle) (hN : 1 ≤ N) :
    (∀ p, ThreadPool.new N = some p →
      p.workers.length = N
      ∧ p.workers.map Worker.id = List.range N
      ∧ ∀ w ∈ p.workers, w.thread.isSome)
    ∧ (∀ p, ThreadPool.build N spawn = .ok p →
      p.workers.length = N
      ∧ p.workers.map Worker.id = List.range N
      ∧ ∀ w ∈ p.workers, w.thread.isSome) := by
  constructor
  · intro p hp
    unfold ThreadPool.new at hp
    rw [if_pos (by omega)] at hp
    cases hp
    refine ⟨by simp, ?_, ?_⟩
    · have hcomp : Worker.id ∘ Worker.new = id := funext fun i => rfl
      rw [List.map_map, hcomp, List.map_id]
    intro w hw
    simp only [List.mem_map] at hw
    obtain ⟨i, _, hi⟩ := hw
    subst hi
    rfl
  · intro p hp
    unfold ThreadPool.build at hp
    rw [if_neg (by omega)] at hp
    cases hb : buildLoop spawn (List.range N) with
    | error e => rw [hb] at hp; cases hp
    | ok ws =>
      rw [hb] at hp
      cases hp
      obtain ⟨h1, h2⟩ := buildLoop_ok_inv spawn (List.range N) ws hb
      refine ⟨?_, h1, h2⟩
      have hlen := congrArg List.length h1
      simpa using hlen

/-- Claim C5 witness: size two, with an always-succeeding spawn oracle. -/
theorem construction_exact_workers_witness :
    1 ≤ 2
    ∧ ((∀ p, ThreadPool.new 2 = some p →
          p.workers.length = 2
          ∧ p.workers.map Worker.id = List.range 2
          ∧ ∀ w ∈ p.workers, w.thread.isSome)
      ∧ (∀ p, ThreadPool.build 2 spawnOk = .ok p →
          p.workers.length = 2
          ∧ p.workers.map Worker.id = List.range 2
          ∧ ∀ w ∈ p.workers, w.thread.isSome)) :=
  ⟨by omega, construction_exact_workers 2 spawnOk (by omega)⟩

/-- Claim C2 fails as stated: at size 2 with thread creation failing for
worker 0 with cause "boom", build returns the ThreadCreationError variant
whose entire payload is the one string "Failed to create worker 0: boom"; and
every PoolCreationError other than ZeroSize carries exactly one string, so the
failing worker index and the underlying cause are conveyed only inside that
formatted text — there is no structured error of a WorkerCreationFailed kind
carrying the index and the cause as separate inspectable values. -/
theorem build_error_carries_only_text :
    ThreadPool.build 2 spawnFail0
      = .error (.ThreadCreationError "Failed to create worker 0: boom")
    ∧ ∀ e : PoolCreationError, e ≠ .ZeroSize →
        ∃ s : String, e = .ThreadCreationError s := by
  constructor
  · rfl
  · intro e he
    cases e with
    | ZeroSize => exact absurd rfl he
    | ThreadCreationError s => exact ⟨s, rfl⟩

/-- Claim C2 (amended): for every N ≥ 1 and k < N, if OS-level thread creation
first fails at worker k (all earlier spawns succeed) with cause c, then
build N stops spawning at that failure — thread creation is attempted exactly
for workers 0..k, none beyond — and returns the ThreadCreationError variant
carrying the single formatted string naming k and c, an error value
distinguishable from ZeroSize; the index and the cause are embedded in that
text rather than carried as separate structured fields. -/
theorem build_stops_at_first_failure (N k : Nat) (c : String)
    (spawn : Nat → Except String JoinHandle)
    (hk : k < N)
    (hfail : spawn k = .error c)
    (hpre : ∀ i, i < k → ∃ h, spawn i = .ok h) :
    ThreadPool.build N spawn
      = .error (.ThreadCreationError
          ("Failed to create worker " ++ toString k ++ ": " ++ c))
    ∧ ThreadPool.buildCalls N spawn = List.range (k + 1)
    ∧ (PoolCreationError.ThreadCreationError
          ("Failed to create worker " ++ toString k ++ ": " ++ c))
        ≠ PoolCreationError.ZeroSize := by
  obtain ⟨rest, hsplit⟩ := range_split k N hk
  have hprem : ∀ i ∈ List.range k, ∃ h, spawn i = .ok h := fun i hi =>
    hpre i (List.mem_range.mp hi)
  refine ⟨?_, ?_, by simp⟩
  · unfold ThreadPool.build
    rw [if_neg (by omega), hsplit,
      buildLoop_err spawn k c rest hfail (List.range k) hprem]
  · unfold ThreadPool.buildCalls
    rw [if_neg (by omega), hsplit,
      buildLoopCalls_err spawn k c rest hfail (List.range k) hprem,
      ← List.range_succ]

/-- Worker loop against the specified state machine: the loop body computes
exactly the spec-side function on every message sequence. -/
theorem workerRun_eq_spec : ∀ msgs, workerRun msgs = specWorkerRun msgs := by
  intro msgs
  induction msgs with
  | nil => rfl
  | cons m rest ih =>
    cases m with
    | Terminate =>
      simp [workerRun, specWorkerRun, Message.isNewJob, List.takeWhile_cons,
        List.dropWhile_cons]
    | NewJob j =>
      have h1 : workerRun (Message.NewJob j :: rest)
          = (j :: (workerRun rest).1, Message.NewJob j :: (workerRun rest).2) :=
        rfl
      rw [h1, ih]
      simp only [specWorkerRun, List.takeWhile_cons, List.dropWhile_cons,
        Message.isNewJob, Message.jobOf, List.filterMap_cons]
      cases hdw : rest.dropWhile Message.isNewJob with
      | nil => simp [hdw, Message.jobOf]
      | cons x xs => simp [hdw, Message.jobOf]

/-- Claim C6: the per-message worker loop realises exactly the specified state
machine — on any sequence of received messages it runs, once each and in
order, exactly the jobs of the NewJob prefix before the first Terminate,
returning to the receive point after each job, and it consumes exactly that
prefix closed by the first Terminate when one occurs, consuming nothing after
it; moreover the loop exits only through a Terminate: the consumed messages
are either all of them, the worker still looping, or a run of NewJob messages
ending in the one Terminate. -/
theorem worker_loop_state_machine :
    ∀ msgs : List Message,
      workerRun msgs = specWorkerRun msgs
      ∧ ((workerRun msgs).2 = msgs
          ∨ ∃ pre, (workerRun msgs).2 = pre ++ [Message.Terminate]
              ∧ ∀ m ∈ pre, m.isNewJob = true) := by
  intro msgs
  refine ⟨workerRun_eq_spec msgs, ?_⟩
  rw [workerRun_eq_spec msgs]
  cases hdw : msgs.dropWhile Message.isNewJob with
  | nil =>
    left
    simp only [specWorkerRun, hdw]
  | cons x xs =>
    right
    refine ⟨msgs.takeWhile Message.isNewJob, ?_,
      fun m hm => mem_takeWhile_sat Message.isNewJob msgs m hm⟩
    simp only [specWorkerRun, hdw]

/-- Claim C9: in each worker-loop iteration the mutex around the receiver is
acquired, one message is received, and the lock is released, in that order,
before the message is acted on; at every job-execution event the lock depth is
zero, so a worker never holds the receive endpoint while running a task. -/
theorem lock_released_before_task :
    ∀ m : Message,
      (workerIterEvents m).take 3
        = [LockEv.acquire, LockEv.recvMsg, LockEv.release]
      ∧ ∀ i j, (workerIterEvents m).get? i = some (LockEv.runJob j) →
          (depthsFrom 0 (workerIterEvents m)).get? i = some 0 := by
  intro m
  cases m with
  | NewJob j0 =>
    refine ⟨rfl, ?_⟩
    intro i j hij
    rcases i with _ | _ | _ | _ | n
    · simp [workerIterEvents] at hij
    · simp [workerIterEvents] at hij
    · simp [workerIterEvents] at hij
    · rfl
    · simp [workerIterEvents] at hij
  | Terminate =>
    refine ⟨rfl, ?_⟩
    intro i j hij
    rcases i with _ | _ | _ | _ | n
    · simp [workerIterEvents] at hij
    · simp [workerIterEvents] at hij
    · simp [workerIterEvents] at hij
    · simp [workerIterEvents] at hij
    · simp [workerIterEvents] at hij

/-- Claim C8: under correct shutdown sequencing — dropping a pool whose
channel held only NewJob messages enqueues one Terminate per still-looping
worker before the send side goes away — the defensive failure branch of the
receive is unreachable: at no state reachable during the drain is a worker
left looping on the closed, empty channel, so every receive yields a message;
and a worker leaves its loop only by consuming an explicit Terminate — the
active count drops in a step only when the head message is a Terminate. -/
theorem recv_failure_unreachable
    (p : ThreadPool) (tr : List Ev) (q : ThreadPool) (n : Nat)
    (hjobs : ∀ m ∈ p.chan, m.isNewJob = true)
    (hd : p.drop = some (tr, q)) :
    ¬ recvCanFail (drainIter n (shutdownDrain q.chan p.workers.length))
    ∧ (∀ s : DrainState, (drainStep s).active < s.active →
        s.queue.head? = some Message.Terminate) := by
  constructor
  · have hq : q.chan
        = p.chan ++ List.replicate p.workers.length Message.Terminate := by
      unfold ThreadPool.drop at hd
      cases hst : sendTerminates p.sender p.workers with
      | none => rw [hst] at hd; cases hd
      | some evs =>
        rw [hst] at hd
        simp only [Option.some.injEq, Prod.mk.injEq] at hd
        obtain ⟨-, hq2⟩ := hd
        rw [← hq2]
    have hinv : countTerm (shutdownDrain q.chan p.workers.length).queue
        = (shutdownDrain q.chan p.workers.length).active := by
      simp only [shutdownDrain]
      rw [hq, countTerm_append, countTerm_allNew p.chan hjobs,
        countTerm_replicate, Nat.zero_add]
    have hres := drain_inv_iter n _ hinv
    intro hfail
    obtain ⟨-, hqe, hact⟩ := hfail
    rw [hqe] at hres
    simp only [countTerm, List.filter_nil, List.length_nil] at hres
    omega
  · intro s hlt
    obtain ⟨qq, a, cl⟩ := s
    cases qq with
    | nil => simp [drainStep] at hlt
    | cons m rest =>
      cases a with
      | zero => simp [drainStep] at hlt
      | succ a' =>
        cases m with
        | NewJob j => simp [drainStep] at hlt
        | Terminate => rfl

/-- Claim C8 witness: dropping a concrete two-worker pool with one pending
job, drained for four steps. -/
theorem recv_failure_unreachable_witness :
    ((∀ m ∈ pool2j.chan, m.isNewJob = true)
      ∧ pool2j.drop = some (dropTrace2, pool2jdropped))
    ∧ (¬ recvCanFail
          (drainIter 4 (shutdownDrain pool2jdropped.chan pool2j.workers.length))
      ∧ ∀ s : DrainState, (drainStep s).active < s.active →
          s.queue.head? = some Message.Terminate) :=
  ⟨⟨by decide, by decide⟩,
    recv_failure_unreachable pool2j dropTrace2 pool2jdropped 4
      (by decide) (by decide)⟩

/-- Claim C2 (amended) witness: size two with the spawn oracle failing at
worker 0. -/
theorem build_stops_at_first_failure_witness :
    (0 < 2 ∧ spawnFail0 0 = .error "boom")
    ∧ (ThreadPool.build 2 spawnFail0
        = .error (.ThreadCreationError
            ("Failed to create worker " ++ toString 0 ++ ": " ++ "boom"))
      ∧ ThreadPool.buildCalls 2 spawnFail0 = List.range (0 + 1)
      ∧ (PoolCreationError.ThreadCreationError
            ("Failed to create worker " ++ toString 0 ++ ": " ++ "boom"))
          ≠ PoolCreationError.ZeroSize) :=
  ⟨⟨by omega, rfl⟩,
    build_stops_at_first_failure 2 0 "boom" spawnFail0 (by omega) rfl
      (fun i hi => absurd hi (Nat.not_lt_zero i))⟩

end Hello
